import Mathlib

/-!
Shallow embedding of the Lobo AI Studio client (src/App.tsx): the canvas
compositor used for aspect-ratio expansion (`createExpansionCanvas`), the
resilient task runner (`runAI`), the session history (`addToHistory`), the
generation handlers (`processImageWithPrompt`, `handleImageExpander`) and the
video polling loop of `handleAnimateImage`.  Numeric computations performed by
the source in JavaScript numbers are embedded over `ℚ` (exact rational
arithmetic); durations are in milliseconds as in the source.
-/

/-- The enumerated aspect-ratio tokens (`ASPECT_RATIOS` in the source):
1:1, 3:4, 4:3, 16:9, 9:16. -/
inductive AspectRatio where
  | r1x1
  | r3x4
  | r4x3
  | r16x9
  | r9x16
deriving DecidableEq, Repr

/-- The list `ASPECT_RATIOS` of the five enumerated ratios. -/
def ASPECT_RATIOS : List AspectRatio :=
  [AspectRatio.r1x1, AspectRatio.r3x4, AspectRatio.r4x3, AspectRatio.r16x9, AspectRatio.r9x16]

/-- The numerator/denominator pair obtained by `targetRatioStr.split(':').map(Number)`. -/
def ratioParts : AspectRatio → ℚ × ℚ
  | AspectRatio.r1x1 => (1, 1)
  | AspectRatio.r3x4 => (3, 4)
  | AspectRatio.r4x3 => (4, 3)
  | AspectRatio.r16x9 => (16, 9)
  | AspectRatio.r9x16 => (9, 16)

/-- `targetRatio = w / h` computed from the split ratio string. -/
def ratioValue (t : AspectRatio) : ℚ :=
  (ratioParts t).1 / (ratioParts t).2

/-- The geometry computed by `createExpansionCanvas`: the canvas dimensions and
the offset at which the source image is drawn (`ctx.drawImage(img, offsetX, offsetY)`). -/
structure ExpansionCanvas where
  width : ℚ
  height : ℚ
  offsetX : ℚ
  offsetY : ℚ
deriving DecidableEq, Repr

/-- The geometric core of `createExpansionCanvas` (src/App.tsx lines 109-154):
given the decoded source image dimensions `imgWidth × imgHeight` and the target
ratio token, it compares `targetRatio` with `imgRatio = img.width / img.height`
and sizes the canvas and draw offset accordingly. -/
def createExpansionCanvas (imgWidth imgHeight : ℚ) (targetRatioStr : AspectRatio) :
    ExpansionCanvas :=
  let targetRatio := ratioValue targetRatioStr
  let imgRatio := imgWidth / imgHeight
  if targetRatio > imgRatio then
    -- wider than image
    let canvasHeight := imgHeight
    let canvasWidth := imgHeight * targetRatio
    { width := canvasWidth, height := canvasHeight
      offsetY := 0, offsetX := (canvasWidth - imgWidth) / 2 }
  else
    -- taller than image
    let canvasWidth := imgWidth
    let canvasHeight := imgWidth / targetRatio
    { width := canvasWidth, height := canvasHeight
      offsetX := 0, offsetY := (canvasHeight - imgHeight) / 2 }

/-- Every enumerated ratio denotes a positive rational. -/
theorem ratioValue_pos (t : AspectRatio) : 0 < ratioValue t := by
  cases t <;> norm_num [ratioValue, ratioParts]

/-- C1: for a source with positive dimensions and any of the five enumerated
ratios, `createExpansionCanvas` follows the two-branch geometry: when the
target ratio exceeds the source ratio the height is kept and the width is
`height * R` with vertical offset 0 and horizontal offset `(canvasWidth - imgWidth) / 2`;
otherwise the width is kept and the height is `width / R` with horizontal
offset 0 and vertical offset `(canvasHeight - imgHeight) / 2`. -/
theorem createExpansionCanvas_branch_geometry (w h : ℚ) (hw : 0 < w) (hh : 0 < h)
    (t : AspectRatio) :
    (ratioValue t > w / h →
      (createExpansionCanvas w h t).height = h ∧
      (createExpansionCanvas w h t).width = h * ratioValue t ∧
      (createExpansionCanvas w h t).offsetY = 0 ∧
      (createExpansionCanvas w h t).offsetX = ((createExpansionCanvas w h t).width - w) / 2) ∧
    (¬ ratioValue t > w / h →
      (createExpansionCanvas w h t).width = w ∧
      (createExpansionCanvas w h t).height = w / ratioValue t ∧
      (createExpansionCanvas w h t).offsetX = 0 ∧
      (createExpansionCanvas w h t).offsetY = ((createExpansionCanvas w h t).height - h) / 2) := by
  constructor
  · intro hgt
    simp [createExpansionCanvas, if_pos hgt]
  · intro hle
    simp [createExpansionCanvas, if_neg hle]

/-- Witness for C1 at the concrete input 4 × 3 with target ratio 16:9
(the wider branch applies since 16/9 > 4/3). -/
theorem createExpansionCanvas_branch_geometry_witness :
    (createExpansionCanvas 4 3 AspectRatio.r16x9).height = 3 ∧
    (createExpansionCanvas 4 3 AspectRatio.r16x9).width = 3 * ratioValue AspectRatio.r16x9 ∧
    (createExpansionCanvas 4 3 AspectRatio.r16x9).offsetY = 0 ∧
    (createExpansionCanvas 4 3 AspectRatio.r16x9).offsetX =
      ((createExpansionCanvas 4 3 AspectRatio.r16x9).width - 4) / 2 :=
  (createExpansionCanvas_branch_geometry 4 3 (by norm_num) (by norm_num)
    AspectRatio.r16x9).1 (by norm_num [ratioValue, ratioParts])

/-- C5 counterexample: a 400 × 400 source expanded to 16:9 gets canvas width
`400 * (16/9) = 6400/9 ≈ 711.11`, which is not 712 (it is strictly below 712),
and the horizontal offset is not `(712 - 400) / 2 = 156`. -/
theorem createExpansionCanvas_400_16x9_not_712 :
    (createExpansionCanvas 400 400 AspectRatio.r16x9).width ≠ 712 ∧
    (createExpansionCanvas 400 400 AspectRatio.r16x9).width < 712 ∧
    (createExpansionCanvas 400 400 AspectRatio.r16x9).offsetX ≠ (712 - 400) / 2 := by
  refine ⟨?_, ?_, ?_⟩ <;> norm_num [createExpansionCanvas, ratioValue, ratioParts]

/-- C5 amended: expanding a 400 × 400 source to 16:9 yields exactly canvas
width `6400/9` (≈ 711.11, so 711 after the browser truncates the canvas width
attribute to an integer, not 712), height 400, horizontal offset
`(6400/9 - 400) / 2 = 1400/9` and vertical offset 0. -/
theorem createExpansionCanvas_400_16x9_exact :
    createExpansionCanvas 400 400 AspectRatio.r16x9 =
      { width := 6400 / 9, height := 400, offsetX := 1400 / 9, offsetY := 0 } := by
  norm_num [createExpansionCanvas, ratioValue, ratioParts, ExpansionCanvas.mk.injEq]

/-- C10: for positive source dimensions and every enumerated ratio, the
expansion canvas fully contains the source image: both canvas dimensions are
at least the source dimensions, both offsets are nonnegative, and the drawn
image stays inside the canvas on both axes. -/
theorem createExpansionCanvas_contains_source (w h : ℚ) (hw : 0 < w) (hh : 0 < h)
    (t : AspectRatio) :
    w ≤ (createExpansionCanvas w h t).width ∧
    h ≤ (createExpansionCanvas w h t).height ∧
    0 ≤ (createExpansionCanvas w h t).offsetX ∧
    0 ≤ (createExpansionCanvas w h t).offsetY ∧
    (createExpansionCanvas w h t).offsetX + w ≤ (createExpansionCanvas w h t).width ∧
    (createExpansionCanvas w h t).offsetY + h ≤ (createExpansionCanvas w h t).height := by
  have hR : 0 < ratioValue t := ratioValue_pos t
  unfold createExpansionCanvas
  by_cases hcmp : ratioValue t > w / h
  · have hwidth : w ≤ h * ratioValue t := by
      have := (div_lt_iff hh).mp hcmp
      nlinarith
    simp only [if_pos hcmp]
    refine ⟨hwidth, le_refl h, ?_, le_refl 0, ?_, by linarith⟩
    · linarith
    · linarith
  · have hle : ratioValue t ≤ w / h := not_lt.mp hcmp
    have hheight : h ≤ w / ratioValue t := by
      rw [le_div_iff hR]
      have := (mul_le_mul_of_nonneg_right hle hh.le)
      calc h * ratioValue t = ratioValue t * h := by ring
        _ ≤ w / h * h := by nlinarith
        _ = w := by field_simp
    simp only [if_neg hcmp]
    refine ⟨le_refl w, hheight, le_refl 0, ?_, by linarith, ?_⟩
    · linarith
    · linarith

/-- Witness for C10 at the concrete input 400 × 400 with target ratio 9:16
(the taller branch applies). -/
theorem createExpansionCanvas_contains_source_witness :
    (400 : ℚ) ≤ (createExpansionCanvas 400 400 AspectRatio.r9x16).width ∧
    (400 : ℚ) ≤ (createExpansionCanvas 400 400 AspectRatio.r9x16).height ∧
    0 ≤ (createExpansionCanvas 400 400 AspectRatio.r9x16).offsetX ∧
    0 ≤ (createExpansionCanvas 400 400 AspectRatio.r9x16).offsetY ∧
    (createExpansionCanvas 400 400 AspectRatio.r9x16).offsetX + 400 ≤
      (createExpansionCanvas 400 400 AspectRatio.r9x16).width ∧
    (createExpansionCanvas 400 400 AspectRatio.r9x16).offsetY + 400 ≤
      (createExpansionCanvas 400 400 AspectRatio.r9x16).height :=
  createExpansionCanvas_contains_source 400 400 (by norm_num) (by norm_num) AspectRatio.r9x16

/-- JavaScript `haystack.includes(needle)` on character lists: true iff the
needle occurs contiguously in the haystack (the empty needle always occurs). -/
def listIncludes : List Char → List Char → Bool
  | [], pat => pat.isEmpty
  | c :: rest, pat => pat.isPrefixOf (c :: rest) || listIncludes rest pat

/-- JavaScript `s.includes(pat)` on strings. -/
def strIncludes (s pat : String) : Bool :=
  listIncludes s.data pat.data

/-- The rate-limit classification of `runAI`:
`errorMessage.includes('429') || /RESOURCE_EXHAUSTED/i.test(errorMessage)`.
The case-insensitive regex test is embedded as an uppercase-folded substring
search (the pattern consists of uppercase letters and an underscore only). -/
def isRateLimitError (errorMessage : String) : Bool :=
  strIncludes errorMessage "429" ||
    listIncludes (errorMessage.data.map Char.toUpper) "RESOURCE_EXHAUSTED".data

/-- The quota-exceeded message `runAI` surfaces after exhausting rate-limit retries. -/
def quotaExceededMessage : String :=
  "Cota de Uso Excedida. A API gratuita tem um limite de solicitações por minuto. Tentamos algumas vezes, mas o erro persiste. Por favor, aguarde um pouco antes de tentar novamente."

/-- The generic terminal message of `runAI`: `Ocorreu um erro: ${errorMessage}`. -/
def genericErrorMessage (errorMessage : String) : String :=
  "Ocorreu um erro: " ++ errorMessage

/-- The retry progress message of `runAI`:
`Limite de API atingido. Tentando novamente em ${delay / 1000}s...`. -/
def retryNotice (delay : ℕ) : String :=
  "Limite de API atingido. Tentando novamente em " ++ toString (delay / 1000) ++ "s..."

/-- The message of `runAI` when the client is not initialized. -/
def notInitializedMessage : String :=
  "API não inicializada. Verifique se a chave de API está configurada."

/-- Observable trace of one `runAI` execution: how many times the task was
invoked, the backoff delays awaited (in milliseconds, in order), the sequence
of `setLoadingMessage` calls, the final content of the error slot (`none` when
`setError` left it cleared) and the final value of the `isLoading` flag. -/
structure RunResult where
  attempts : ℕ
  delays : List ℕ
  loadingMessages : List String
  error : Option String
  isLoading : Bool
deriving DecidableEq, Repr

/-- The retry loop of `runAI` (src/App.tsx lines 597-624), entered at a given
`attempt` with `remaining = maxRetries - attempt` retries still allowed.  The
task is modelled by the exception it throws at each zero-indexed attempt
(`none` = the attempt succeeds).  The loop: on success return with the loading
flag cleared; on a rate-limit-shaped failure with a retry remaining, wait
`initialDelay * 2 ^ attempt`, emit the retry notice and recurse; otherwise set
the quota-exceeded or the generic error and return with the loading flag
cleared. -/
def runAILoop (task : ℕ → Option String) (initialDelay : ℕ) :
    (remaining attempt : ℕ) → RunResult
  | 0, attempt =>
    match task attempt with
    | none =>
        { attempts := 1, delays := [], loadingMessages := [],
          error := none, isLoading := false }
    | some errorMessage =>
        if isRateLimitError errorMessage then
          -- attempt = maxRetries: retries exhausted
          { attempts := 1, delays := [], loadingMessages := [],
            error := some quotaExceededMessage, isLoading := false }
        else
          { attempts := 1, delays := [], loadingMessages := [],
            error := some (genericErrorMessage errorMessage), isLoading := false }
  | Nat.succ r, attempt =>
    match task attempt with
    | none =>
        { attempts := 1, delays := [], loadingMessages := [],
          error := none, isLoading := false }
    | some errorMessage =>
        if isRateLimitError errorMessage then
          -- attempt < maxRetries: exponential backoff, then retry
          let delay := initialDelay * 2 ^ attempt
          let rest := runAILoop task initialDelay r (attempt + 1)
          { attempts := rest.attempts + 1, delays := delay :: rest.delays,
            loadingMessages := retryNotice delay :: rest.loadingMessages,
            error := rest.error, isLoading := rest.isLoading }
        else
          { attempts := 1, delays := [], loadingMessages := [],
            error := some (genericErrorMessage errorMessage), isLoading := false }

/-- `runAI` (src/App.tsx lines 583-625): if the client is not initialized it
only sets the configuration error (leaving the loading flag untouched);
otherwise it sets the initial loading message and runs the retry loop with
`maxRetries = 2` and `initialDelay = 2000`. -/
def runAI (aiInitialized : Bool) (task : ℕ → Option String) (message : String)
    (isLoadingBefore : Bool) : RunResult :=
  if aiInitialized then
    let maxRetries := 2
    let initialDelay := 2000
    let r := runAILoop task initialDelay maxRetries 0
    { r with loadingMessages := message :: r.loadingMessages }
  else
    { attempts := 0, delays := [], loadingMessages := [],
      error := some notInitializedMessage, isLoading := isLoadingBefore }

theorem runAILoop_success {task : ℕ → Option String} {d r a : ℕ}
    (h : task a = none) :
    runAILoop task d r a =
      { attempts := 1, delays := [], loadingMessages := [],
        error := none, isLoading := false } := by
  cases r <;> (unfold runAILoop; rw [h])

theorem runAILoop_generic {task : ℕ → Option String} {d r a : ℕ} {m : String}
    (h : task a = some m) (hm : isRateLimitError m = false) :
    runAILoop task d r a =
      { attempts := 1, delays := [], loadingMessages := [],
        error := some (genericErrorMessage m), isLoading := false } := by
  cases r <;> (unfold runAILoop; rw [h]; simp [hm])

theorem runAILoop_quota {task : ℕ → Option String} {d a : ℕ} {m : String}
    (h : task a = some m) (hm : isRateLimitError m = true) :
    runAILoop task d 0 a =
      { attempts := 1, delays := [], loadingMessages := [],
        error := some quotaExceededMessage, isLoading := false } := by
  unfold runAILoop
  rw [h]
  simp [hm]

theorem runAILoop_retry {task : ℕ → Option String} {d r a : ℕ} {m : String}
    (h : task a = some m) (hm : isRateLimitError m = true) :
    runAILoop task d (r + 1) a =
      { attempts := (runAILoop task d r (a + 1)).attempts + 1,
        delays := d * 2 ^ a :: (runAILoop task d r (a + 1)).delays,
        loadingMessages :=
          retryNotice (d * 2 ^ a) :: (runAILoop task d r (a + 1)).loadingMessages,
        error := (runAILoop task d r (a + 1)).error,
        isLoading := (runAILoop task d r (a + 1)).isLoading } := by
  conv_lhs => unfold runAILoop
  rw [h]
  simp [hm]

/-- C2: for a task that always fails with a rate-limit-shaped error, `runAI`
(whose `maxRetries` is 2) invokes the task exactly `maxRetries + 1 = 3` times
and then sets the quota-exceeded message, not the generic one. -/
theorem runAI_rate_limit_exhaustion (task : ℕ → Option String) (message : String)
    (b : Bool) (h : ∀ n, ∃ m, task n = some m ∧ isRateLimitError m = true) :
    (runAI true task message b).attempts = 3 ∧
    (runAI true task message b).error = some quotaExceededMessage := by
  obtain ⟨m0, h0, hr0⟩ := h 0
  obtain ⟨m1, h1, hr1⟩ := h 1
  obtain ⟨m2, h2, hr2⟩ := h 2
  have e2 : runAILoop task 2000 0 2 = _ := runAILoop_quota h2 hr2
  have e1 := runAILoop_retry (r := 0) (d := 2000) h1 hr1
  have e0 := runAILoop_retry (r := 1) (d := 2000) h0 hr0
  simp only [runAI, if_pos]
  rw [e0, e1, e2]
  simp

/-- Witness for C2: the constant task failing with message "429" is invoked
three times and ends in the quota-exceeded error. -/
theorem runAI_rate_limit_exhaustion_witness :
    (runAI true (fun _ => some "429") "Gerando imagem..." false).attempts = 3 ∧
    (runAI true (fun _ => some "429") "Gerando imagem..." false).error =
      some quotaExceededMessage :=
  runAI_rate_limit_exhaustion (fun _ => some "429") "Gerando imagem..." false
    (fun _ => ⟨"429", rfl, by decide⟩)

/-- C3: for a task that always fails with a non-rate-limit-shaped error,
`runAI` invokes the task exactly once, performs no backoff wait and no retry
notice, and sets the generic error message, which contains the original
error text. -/
theorem runAI_terminal_failure (task : ℕ → Option String) (message : String)
    (b : Bool) (h : ∀ n, ∃ m, task n = some m ∧ isRateLimitError m = false) :
    (runAI true task message b).attempts = 1 ∧
    (runAI true task message b).delays = [] ∧
    (runAI true task message b).loadingMessages = [message] ∧
    ∃ m, task 0 = some m ∧
      (runAI true task message b).error = some (genericErrorMessage m) ∧
      ∃ pre, genericErrorMessage m = pre ++ m := by
  obtain ⟨m0, h0, hr0⟩ := h 0
  have e0 : runAILoop task 2000 2 0 = _ := runAILoop_generic h0 hr0
  simp only [runAI, if_pos]
  rw [e0]
  exact ⟨rfl, rfl, rfl, m0, h0, rfl, "Ocorreu um erro: ", rfl⟩

/-- Witness for C3: the constant task failing with message "boom" is invoked
once with no waits, and the generic message wraps "boom". -/
theorem runAI_terminal_failure_witness :
    (runAI true (fun _ => some "boom") "Gerando imagem..." false).attempts = 1 ∧
    (runAI true (fun _ => some "boom") "Gerando imagem..." false).delays = [] ∧
    (runAI true (fun _ => some "boom") "Gerando imagem..." false).loadingMessages =
      ["Gerando imagem..."] ∧
    ∃ m, (fun _ : ℕ => some "boom") 0 = some m ∧
      (runAI true (fun _ => some "boom") "Gerando imagem..." false).error =
        some (genericErrorMessage m) ∧
      ∃ pre, genericErrorMessage m = pre ++ m :=
  runAI_terminal_failure (fun _ => some "boom") "Gerando imagem..." false
    (fun _ => ⟨"boom", rfl, by decide⟩)

theorem runAILoop_isLoading_false (task : ℕ → Option String) (d : ℕ) :
    ∀ r a, (runAILoop task d r a).isLoading = false := by
  intro r
  induction r with
  | zero =>
      intro a
      unfold runAILoop
      cases task a with
      | none => rfl
      | some m => by_cases hm : isRateLimitError m <;> simp [hm]
  | succ r ih =>
      intro a
      unfold runAILoop
      cases task a with
      | none => rfl
      | some m => by_cases hm : isRateLimitError m <;> simp [hm, ih]

/-- C9: whenever the client is initialized, every terminating `runAI`
execution — success on any attempt, terminal non-rate-limit failure, or
rate-limit exhaustion — ends with the loading flag cleared, regardless of the
task and of the flag's previous value. -/
theorem runAI_clears_isLoading (aiInitialized : Bool) (task : ℕ → Option String)
    (message : String) (b : Bool) (h : aiInitialized = true) :
    (runAI aiInitialized task message b).isLoading = false := by
  subst h
  simp only [runAI, if_pos]
  exact runAILoop_isLoading_false task 2000 2 0

/-- Witness for C9 at a concrete task that succeeds immediately, with the
loading flag previously set. -/
theorem runAI_clears_isLoading_witness :
    (runAI true (fun _ => none) "Gerando imagem..." true).isLoading = false :=
  runAI_clears_isLoading true (fun _ => none) "Gerando imagem..." true rfl

theorem runAILoop_delay_formula (task : ℕ → Option String) (d : ℕ) :
    ∀ r a i delay, (runAILoop task d r a).delays.get? i = some delay →
      delay = d * 2 ^ (a + i) := by
  intro r
  induction r with
  | zero =>
      intro a i delay hget
      cases htask : task a with
      | none => rw [runAILoop_success htask] at hget; simp at hget
      | some m =>
          by_cases hm : isRateLimitError m
          · rw [runAILoop_quota htask hm] at hget; simp at hget
          · rw [runAILoop_generic htask (by simpa using hm)] at hget; simp at hget
  | succ r ih =>
      intro a i delay hget
      cases htask : task a with
      | none => rw [runAILoop_success htask] at hget; simp at hget
      | some m =>
          by_cases hm : isRateLimitError m
          · rw [runAILoop_retry htask hm] at hget
            cases i with
            | zero =>
                simp only [List.get?_cons_zero, Option.some.injEq] at hget
                simpa using hget.symm
            | succ i =>
                simp only [List.get?] at hget
                have h2 := ih (a + 1) i delay hget
                have e : a + (i + 1) = a + 1 + i := by omega
                rw [e]
                exact h2
          · rw [runAILoop_generic htask (by simpa using hm)] at hget; simp at hget

theorem runAILoop_messages_are_notices (task : ℕ → Option String) (d : ℕ) :
    ∀ r a, (runAILoop task d r a).loadingMessages =
      ((runAILoop task d r a).delays).map retryNotice := by
  intro r
  induction r with
  | zero =>
      intro a
      cases htask : task a with
      | none => rw [runAILoop_success htask]; rfl
      | some m =>
          by_cases hm : isRateLimitError m
          · rw [runAILoop_quota htask hm]; rfl
          · rw [runAILoop_generic htask (by simpa using hm)]; rfl
  | succ r ih =>
      intro a
      cases htask : task a with
      | none => rw [runAILoop_success htask]; rfl
      | some m =>
          by_cases hm : isRateLimitError m
          · rw [runAILoop_retry htask hm]
            simp [ih (a + 1)]
          · rw [runAILoop_generic htask (by simpa using hm)]; rfl

/-- C4: every backoff wait of the retry loop equals `initialDelay * 2 ^ attempt`
(attempt zero-indexed), each wait is announced by the retry notice naming the
duration in seconds (`delay / 1000`), and with the defaults
(`initialDelay = 2000`, `maxRetries = 2`) an always-rate-limited task produces
the waits 2000 ms then 4000 ms, in that order, announced as 2s and 4s. -/
theorem runAI_exponential_backoff :
    (∀ (task : ℕ → Option String) (initialDelay remaining attempt i delay : ℕ),
        (runAILoop task initialDelay remaining attempt).delays.get? i = some delay →
        delay = initialDelay * 2 ^ (attempt + i)) ∧
    (∀ (task : ℕ → Option String) (initialDelay remaining attempt : ℕ),
        (runAILoop task initialDelay remaining attempt).loadingMessages =
          ((runAILoop task initialDelay remaining attempt).delays).map retryNotice) ∧
    (∀ (task : ℕ → Option String) (message : String) (b : Bool),
        (∀ n, ∃ m, task n = some m ∧ isRateLimitError m = true) →
        (runAI true task message b).delays = [2000, 4000] ∧
        (runAI true task message b).loadingMessages =
          [message, retryNotice 2000, retryNotice 4000]) ∧
    retryNotice 2000 = "Limite de API atingido. Tentando novamente em 2s..." ∧
    retryNotice 4000 = "Limite de API atingido. Tentando novamente em 4s..." := by
  refine ⟨fun task d r a i delay => runAILoop_delay_formula task d r a i delay,
    fun task d r a => runAILoop_messages_are_notices task d r a,
    ?_, rfl, rfl⟩
  intro task message b h
  obtain ⟨m0, h0, hr0⟩ := h 0
  obtain ⟨m1, h1, hr1⟩ := h 1
  obtain ⟨m2, h2, hr2⟩ := h 2
  have e2 : runAILoop task 2000 0 2 = _ := runAILoop_quota h2 hr2
  have e1 := runAILoop_retry (r := 0) (d := 2000) h1 hr1
  have e0 := runAILoop_retry (r := 1) (d := 2000) h0 hr0
  simp only [runAI, if_pos]
  rw [e0, e1, e2]
  refine ⟨by norm_num, ?_⟩
  simp

/-- Witness for C4: an always-RESOURCE_EXHAUSTED task under the default
configuration waits 2000 ms then 4000 ms. -/
theorem runAI_exponential_backoff_witness :
    (runAI true (fun _ => some "RESOURCE_EXHAUSTED") "Expandindo imagem..." false).delays =
      [2000, 4000] ∧
    (runAI true (fun _ => some "RESOURCE_EXHAUSTED") "Expandindo imagem..." false).loadingMessages =
      ["Expandindo imagem...", retryNotice 2000, retryNotice 4000] :=
  runAI_exponential_backoff.2.2.1 (fun _ => some "RESOURCE_EXHAUSTED")
    "Expandindo imagem..." false
    (fun _ => ⟨"RESOURCE_EXHAUSTED", rfl, by decide⟩)

/-- The tool selector `AiTool` (display strings elided; they play no role in
the claims). -/
inductive AiTool where
  | CREATOR_EDITOR
  | WATERMARK_REMOVER
  | QUALITY_IMPROVER
  | IMAGE_EXPANDER
  | STYLE_CLONER
  | CHARACTER_CLONER
  | IMAGE_ANIMATOR
deriving DecidableEq, Repr

/-- The `'image' | 'video'` result kind. -/
inductive MediaType where
  | image
  | video
deriving DecidableEq, Repr

/-- The `HistoryItem` record of src/App.tsx lines 30-37. -/
structure HistoryItem where
  id : String
  type : MediaType
  url : String
  prompt : String
  tool : AiTool
  timestamp : String
deriving DecidableEq, Repr

/-- `addToHistory` (src/App.tsx lines 418-428): builds a new `HistoryItem`
from the current prompt and tool, the clock (`nowId` for
`new Date().getTime().toString()`, `nowStamp` for the locale timestamp) and
the generation result, and prepends it to the previous history list
(`setHistory(prev => [newItem, ...prev])`). -/
def addToHistory (prompt : String) (tool : AiTool) (nowId nowStamp : String)
    (prev : List HistoryItem) (resultUrl : String) (resultType : MediaType) :
    List HistoryItem :=
  { id := nowId, type := resultType, url := resultUrl, prompt := prompt,
    tool := tool, timestamp := nowStamp } :: prev

/-- The data of one successful generation, in completion order. -/
structure GenerationEvent where
  prompt : String
  tool : AiTool
  nowId : String
  nowStamp : String
  url : String
  resultType : MediaType
deriving DecidableEq, Repr

/-- One `addToHistory` call for one successful generation. -/
def genStep (hist : List HistoryItem) (e : GenerationEvent) : List HistoryItem :=
  addToHistory e.prompt e.tool e.nowId e.nowStamp hist e.url e.resultType

/-- The history list after a sequence of successful generations, starting from
the initial empty history (`useState<HistoryItem[]>([])`). -/
def historyAfter (events : List GenerationEvent) : List HistoryItem :=
  events.foldl genStep []

theorem foldl_genStep_length (events : List GenerationEvent) :
    ∀ init : List HistoryItem,
      (List.foldl genStep init events).length = init.length + events.length := by
  induction events with
  | nil => intro init; simp
  | cons e es ih =>
      intro init
      simp only [List.foldl_cons, ih, genStep, addToHistory, List.length_cons]
      omega

/-- C6: after N successful generations the history has length exactly N, its
head is the item created by the most recent generation, and `addToHistory`
only prepends: it returns exactly the new item consed onto the previous list,
which survives unchanged as a suffix. -/
theorem history_newest_first :
    (∀ events : List GenerationEvent, (historyAfter events).length = events.length) ∧
    (∀ (events : List GenerationEvent) (e : GenerationEvent),
        (historyAfter (events ++ [e])).head? =
          some { id := e.nowId, type := e.resultType, url := e.url,
                 prompt := e.prompt, tool := e.tool, timestamp := e.nowStamp }) ∧
    (∀ (prompt : String) (tool : AiTool) (nowId nowStamp : String)
        (prev : List HistoryItem) (url : String) (ty : MediaType),
        addToHistory prompt tool nowId nowStamp prev url ty =
          { id := nowId, type := ty, url := url, prompt := prompt,
            tool := tool, timestamp := nowStamp } :: prev ∧
        prev <:+ addToHistory prompt tool nowId nowStamp prev url ty) := by
  refine ⟨?_, ?_, ?_⟩
  · intro events
    simpa [historyAfter] using foldl_genStep_length events []
  · intro events e
    rw [historyAfter, List.foldl_append]
    rfl
  · intro prompt tool nowId nowStamp prev url ty
    exact ⟨rfl, List.suffix_cons _ _⟩

/-- Witness for C6 on a concrete one-generation run. -/
theorem history_newest_first_witness :
    (historyAfter
      [{ prompt := "um lobo", tool := AiTool.CREATOR_EDITOR, nowId := "1",
         nowStamp := "01/01/2026", url := "blob:a", resultType := MediaType.image }]).length
      = 1 :=
  history_newest_first.1
    [{ prompt := "um lobo", tool := AiTool.CREATOR_EDITOR, nowId := "1",
       nowStamp := "01/01/2026", url := "blob:a", resultType := MediaType.image }]

/-- An inline image part of a remote response (`inlineData`). -/
structure InlineData where
  data : String
  mimeType : String
deriving DecidableEq, Repr

/-- The data-URL assembled for a returned inline image:
`data:${mimeType};base64,${data}`. -/
def imageDataUrl (d : InlineData) : String :=
  "data:" ++ d.mimeType ++ ";base64," ++ d.data

/-- What one generation handler does, as observed by the Runner and by the UI
state: the exception it lets escape to `runAI` (if any), the error message it
writes directly via `setError` (if any), the result image it sets and whether
it appended to the history. -/
structure HandlerOutcome where
  thrown : Option String
  errorSet : Option String
  resultImageSet : Option String
  addedToHistory : Bool
deriving DecidableEq, Repr

/-- `processImageWithPrompt` (src/App.tsx lines 463-479), as a function of the
image part found in the remote response: on an image it sets the result and
history; with no image it throws, letting `runAI` classify the failure. -/
def processImageWithPrompt (imagePart : Option InlineData) : HandlerOutcome :=
  match imagePart with
  | some d =>
      { thrown := none, errorSet := none,
        resultImageSet := some (imageDataUrl d), addedToHistory := true }
  | none =>
      { thrown := some "A IA não retornou uma imagem editada.",
        errorSet := none, resultImageSet := none, addedToHistory := false }

/-- The response handling of `handleImageExpander` (src/App.tsx lines 496-501):
on an image it sets the result and history; with no image it calls `setError`
directly and returns normally — it does not throw. -/
def handleImageExpander (imagePart : Option InlineData) : HandlerOutcome :=
  match imagePart with
  | some d =>
      { thrown := none, errorSet := none,
        resultImageSet := some (imageDataUrl d), addedToHistory := true }
  | none =>
      { thrown := none,
        errorSet := some "Não foi possível expandir a imagem.",
        resultImageSet := none, addedToHistory := false }

/-- C7 counterexample: when the remote response carries no image,
`handleImageExpander` does not throw — it writes the error slot itself and
returns normally — so `runAI` classifies the run as a success (one attempt,
no Runner-set error), not as a Failed state reached through the Runner. -/
theorem expander_no_image_not_runner_failure :
    (handleImageExpander none).thrown = none ∧
    (handleImageExpander none).errorSet = some "Não foi possível expandir a imagem." ∧
    (runAI true (fun _ => (handleImageExpander none).thrown)
      "Expandindo imagem..." false).error = none ∧
    (runAI true (fun _ => (handleImageExpander none).thrown)
      "Expandindo imagem..." false).attempts = 1 := by
  have e := @runAILoop_success (fun _ : ℕ => (handleImageExpander none).thrown)
    2000 2 0 rfl
  refine ⟨rfl, rfl, ?_, ?_⟩ <;> simp [runAI, e]

/-- C7 amended: a failure thrown by a generation task — in particular the
no-image case of `processImageWithPrompt` — is caught at the `runAI` boundary
and converted into the error slot (generic classification, one attempt,
loading cleared); but in `handleImageExpander` the no-image case does not go
through the Runner: the handler itself writes the error slot and the Runner
observes a success. -/
theorem no_image_error_routing :
    (processImageWithPrompt none).thrown = some "A IA não retornou uma imagem editada." ∧
    (runAI true (fun _ => (processImageWithPrompt none).thrown)
      "Melhorando qualidade..." false).error =
        some (genericErrorMessage "A IA não retornou uma imagem editada.") ∧
    (runAI true (fun _ => (processImageWithPrompt none).thrown)
      "Melhorando qualidade..." false).attempts = 1 ∧
    (runAI true (fun _ => (processImageWithPrompt none).thrown)
      "Melhorando qualidade..." false).isLoading = false ∧
    (handleImageExpander none).thrown = none ∧
    (handleImageExpander none).errorSet = some "Não foi possível expandir a imagem." ∧
    (runAI true (fun _ => (handleImageExpander none).thrown)
      "Expandindo imagem..." false).error = none := by
  have hnr : isRateLimitError "A IA não retornou uma imagem editada." = false := by decide
  have eg := @runAILoop_generic (fun _ : ℕ => (processImageWithPrompt none).thrown)
    2000 2 0 "A IA não retornou uma imagem editada." rfl hnr
  have es := @runAILoop_success (fun _ : ℕ => (handleImageExpander none).thrown)
    2000 2 0 rfl
  refine ⟨rfl, ?_, ?_, ?_, rfl, rfl, ?_⟩ <;> simp [runAI, eg, es]

/-- The fixed ordered progress message list `VIDEO_GENERATION_MESSAGES`
(src/App.tsx lines 17-24). -/
def VIDEO_GENERATION_MESSAGES : List String :=
  [ "Iniciando o processo de animação...",
    "Analisando a imagem e o prompt...",
    "Gerando os quadros iniciais do vídeo...",
    "Renderizando a sequência de animação...",
    "Aplicando pós-processamento e refinamentos...",
    "Finalizando o vídeo, isso pode levar alguns minutos..." ]

/-- `VIDEO_GENERATION_MESSAGES[messageIndex % VIDEO_GENERATION_MESSAGES.length]`. -/
def videoProgressMessage (messageIndex : ℕ) : String :=
  VIDEO_GENERATION_MESSAGES.getD (messageIndex % VIDEO_GENERATION_MESSAGES.length) ""

/-- The polling loop of `handleAnimateImage` (src/App.tsx lines 565-571).
`done k` tells whether the remote operation reports done at its k-th
inspection (k = 0 inspects the operation returned by `generateVideos`).  Each
loop iteration displays the next cyclic progress message, waits 10000 ms and
re-polls.  The trace lists, per iteration, the message displayed and the wait
in milliseconds.  The source loop has no local bound; `fuel` only truncates
the embedded trace and is not part of the modelled program. -/
def videoPollLoop (done : ℕ → Bool) : (fuel messageIndex : ℕ) → List (String × ℕ)
  | 0, _ => []
  | Nat.succ fuel, messageIndex =>
    if done messageIndex then []
    else (videoProgressMessage messageIndex, 10000) ::
      videoPollLoop done fuel (messageIndex + 1)

theorem videoPollLoop_run (n : ℕ) :
    ∀ (done : ℕ → Bool) (fuel k : ℕ),
      (∀ j, j < n → done (k + j) = false) → done (k + n) = true → n ≤ fuel →
      videoPollLoop done fuel k =
        (List.range n).map (fun i => (videoProgressMessage (k + i), 10000)) := by
  induction n with
  | zero =>
      intro done fuel k _ hdone _
      have hk : done k = true := by simpa using hdone
      cases fuel with
      | zero => rfl
      | succ f =>
          unfold videoPollLoop
          rw [hk]
          rfl
  | succ n ih =>
      intro done fuel k h0 hdone hfuel
      cases fuel with
      | zero => omega
      | succ f =>
          have hk : done k = false := by simpa using h0 0 (Nat.succ_pos n)
          have hshift : ∀ j, j < n → done ((k + 1) + j) = false := by
            intro j hj
            have := h0 (j + 1) (by omega)
            have e : k + (j + 1) = (k + 1) + j := by omega
            rwa [e] at this
          have hdone2 : done ((k + 1) + n) = true := by
            have e : k + (n + 1) = (k + 1) + n := by omega
            rwa [e] at hdone
          unfold videoPollLoop
          rw [hk]
          simp only [Bool.false_eq_true, if_false]
          rw [ih done f (k + 1) hshift hdone2 (by omega)]
          rw [List.range_succ_eq_map, List.map_cons, List.map_map]
          have e0 : k + 0 = k := by omega
          rw [e0]
          have efun : ∀ i : ℕ, (k + 1) + i = k + (i + 1) := by omega
          refine congrArg (_ :: ·) ?_
          apply List.map_congr_left
          intro i _
          simp [Function.comp, efun i]

/-- C8: while the remote operation reports not done, the animation path emits
on its i-th poll (zero-indexed) exactly progress message number
`i mod VIDEO_GENERATION_MESSAGES.length` (wrapping around) paired with a fixed
10000 ms wait; and no local bound stops the loop: if the operation never
reports done, the trace grows with the available fuel alone. -/
theorem video_poll_messages_and_waits :
    (∀ (done : ℕ → Bool) (n fuel : ℕ),
        (∀ k, k < n → done k = false) → done n = true → n ≤ fuel →
        videoPollLoop done fuel 0 =
          (List.range n).map
            (fun i => (VIDEO_GENERATION_MESSAGES.getD
                (i % VIDEO_GENERATION_MESSAGES.length) "", 10000))) ∧
    (∀ (done : ℕ → Bool) (fuel : ℕ),
        (∀ k, done k = false) → (videoPollLoop done fuel 0).length = fuel) := by
  constructor
  · intro done n fuel h0 hdone hfuel
    have h := videoPollLoop_run n done fuel 0 (fun j hj => by simpa using h0 j hj)
      (by simpa using hdone) hfuel
    simpa [videoProgressMessage] using h
  · intro done fuel hnever
    have key : ∀ (f k : ℕ), (videoPollLoop done f k).length = f := by
      intro f
      induction f with
      | zero => intro k; rfl
      | succ f ih =>
          intro k
          unfold videoPollLoop
          rw [hnever k]
          simp [ih]
    exact key fuel 0

/-- Witness for C8: an operation that first reports done on its third
inspection yields exactly the first two cyclic messages, each followed by a
10000 ms wait. -/
theorem video_poll_messages_and_waits_witness :
    videoPollLoop (fun k => decide (2 ≤ k)) 5 0 =
      [("Iniciando o processo de animação...", 10000),
       ("Analisando a imagem e o prompt...", 10000)] :=
  (video_poll_messages_and_waits.1 (fun k => decide (2 ≤ k)) 2 5
    (fun k hk => by simp [decide_eq_false_iff_not]; omega)
    (by decide) (by omega)).trans (by decide)
